import Mathlib

/-!
Verification of the SketchScript 2.0 interpreter (src/main.py).

The core of the program — tokenizer, recursive-descent expression/condition
parser, block matcher, evaluator, and the tree-walking statement interpreter —
is shallowly embedded below.  Modelling conventions:

* Python `float` values are modelled by `PyFloat`, an exact-rational type kept
  in canonical form (gcd-reduced, positive denominator), so that Python value
  equality coincides with structural equality.  All programs appearing in the
  claims compute with small integers, where the Python float and the exact
  rational agree.
* Python exceptions are modelled by the `Err` type: the interpreter's own
  deliberate `raise Exception(...)` sites become `Err.syntaxError`,
  `Err.undefinedFunction` or `Err.arityError` (the spec's error kinds), while
  Python-level crashes that the code does not guard against become
  `Err.indexError` (out-of-bounds subscript) and `Err.typeError` (arithmetic
  or comparison on a function-definition value).
* The mutually recursive parser and the statement interpreter are given a
  numeric fuel parameter so that recursion is structural; fuel exhaustion is
  the distinguished outcome `Err.fuelExhausted` and is unreachable for the
  generous bounds used by the wrappers.
* `math.cos`, `math.sin`, `math.pi` and `random.choice` are external to the
  language core; they are supplied by an `Oracle` parameter.
-/

deriving instance DecidableEq for Except

namespace SketchScript

/-- Exact-rational model of a Python float: numerator over positive
denominator, kept in canonical (gcd-reduced) form by the smart constructor
`PyFloat.norm`, so that Python float value equality is structural equality. -/
structure PyFloat where
  n : Int
  d : Nat
  deriving DecidableEq, Repr

/-- Canonicalising constructor: reduce the fraction n / d by the gcd.  The
degenerate case d = 0 never arises in the interpreter (division by zero is
intercepted before dividing). -/
def PyFloat.norm (n : Int) (d : Nat) : PyFloat :=
  let g := n.natAbs.gcd d
  if g = 0 then ⟨0, 1⟩ else ⟨n.tdiv g, d / g⟩

instance : OfNat PyFloat k := ⟨⟨k, 1⟩⟩

/-- Embed an integer as a PyFloat. -/
def PyFloat.ofInt (k : Int) : PyFloat := ⟨k, 1⟩

def PyFloat.add (a b : PyFloat) : PyFloat :=
  PyFloat.norm (a.n * b.d + b.n * a.d) (a.d * b.d)

def PyFloat.sub (a b : PyFloat) : PyFloat :=
  PyFloat.norm (a.n * b.d - b.n * a.d) (a.d * b.d)

def PyFloat.mul (a b : PyFloat) : PyFloat :=
  PyFloat.norm (a.n * b.n) (a.d * b.d)

/-- Exact division a / b; callers guarantee b is nonzero. -/
def PyFloat.div (a b : PyFloat) : PyFloat :=
  if b.n < 0 then PyFloat.norm (-(a.n * b.d)) (a.d * (-b.n).toNat)
  else PyFloat.norm (a.n * b.d) (a.d * b.n.toNat)

/-- Python `<` on (exact) floats: cross-multiplication, denominators positive. -/
def PyFloat.ltb (a b : PyFloat) : Bool := a.n * b.d < b.n * a.d

instance : Add PyFloat := ⟨PyFloat.add⟩
instance : Sub PyFloat := ⟨PyFloat.sub⟩
instance : Mul PyFloat := ⟨PyFloat.mul⟩
instance : Div PyFloat := ⟨PyFloat.div⟩

instance : NatCast PyFloat := ⟨fun k => ⟨k, 1⟩⟩

instance : OfScientific PyFloat :=
  ⟨fun m b e => if b then PyFloat.norm m (10 ^ e) else ⟨(m * 10 ^ e : Nat), 1⟩⟩

/-- Python `int(...)` truncation toward zero of an exact float. -/
def PyFloat.toPyInt (a : PyFloat) : Int := a.n.tdiv a.d

/-! ## Tokenizer (main.py `tokenize`, lines 94–114)

Python's `str.replace` with a single-character pattern is character-wise
expansion, modelled at the `List Char` level. -/

/-- The block/punctuation characters the tokenizer separates first. -/
def sepChars : List Char := ['\x7b', '\x7d', '(', ')', ',']

/-- The operator characters the tokenizer separates second. -/
def opChars : List Char := ['+', '-', '*', '/', '=', '>', '<', '!']

/-- `code.replace(ch, " " + ch + " ")` for a single character pattern. -/
def replaceChar (c : Char) (cs : List Char) : List Char :=
  cs.flatMap (fun x => if x = c then [' ', c, ' '] else [x])

/-- Split a character list on whitespace, keeping empty fragments (the
semantics of splitting at every whitespace character); the tokenizer filters
the empties afterwards, like the Python list comprehension. -/
def splitWs : List Char → List (List Char)
  | [] => [[]]
  | c :: rest =>
    if c.isWhitespace then [] :: splitWs rest
    else
      match splitWs rest with
      | w :: ws => (c :: w) :: ws
      | [] => [[c]]

/-- The `!` `=` merging pass at the end of `tokenize`. -/
def combineBangEq : List String → List String
  | "!" :: "=" :: rest => "!=" :: combineBangEq rest
  | t :: rest => t :: combineBangEq rest
  | [] => []

/-- main.py `tokenize`: surround separators/operators with spaces, split on
whitespace discarding empty fragments, then merge adjacent `!` `=`. -/
def tokenize (code : List Char) : List String :=
  let c1 := sepChars.foldl (fun acc ch => replaceChar ch acc) code
  let c2 := opChars.foldl (fun acc ch => replaceChar ch acc) c1
  let toks := ((splitWs c2).map (fun l => String.mk l)).filter (fun s => s ≠ "")
  combineBangEq toks

/-! ## Expression trees and values -/

inductive Op
  | add
  | sub
  | mul
  | div
  deriving DecidableEq, Repr

/-- Expression node: numeric literal, variable name, or binary operation
(main.py represents these as float / str / dict). -/
inductive Expr
  | num (q : PyFloat)
  | var (s : String)
  | bin (op : Op) (l r : Expr)
  deriving DecidableEq, Repr

/-- A stored function definition: parameter names and raw body tokens. -/
structure FuncDef where
  params : List String
  body : List String
  deriving DecidableEq, Repr

/-- A value in the `symbols` table: a number or a function definition. -/
inductive Value
  | num (q : PyFloat)
  | func (f : FuncDef)
  deriving DecidableEq, Repr

/-- The environment: the `symbols` dict, as an insertion-ordered association
list with unique keys (maintained by `envSet`). -/
abbrev Env := List (String × Value)

/-- Dictionary lookup. -/
def envGet : Env → String → Option Value
  | [], _ => none
  | (k, v) :: r, s => if k = s then some v else envGet r s

/-- Dictionary store: overwrite in place, or append preserving insertion
order (Python dict semantics). -/
def envSet : Env → String → Value → Env
  | [], k, v => [(k, v)]
  | (k', v') :: r, k, v => if k' = k then (k, v) :: r else (k', v') :: envSet r k v

/-- `dict.update`: apply each binding of the update list in order. -/
def envUpdate (e : Env) (u : List (String × Value)) : Env :=
  u.foldl (fun acc p => envSet acc p.1 p.2) e

/-- The error kinds of a run (see the module comment). -/
inductive Err
  | syntaxError (msg : String)
  | indexError
  | typeError
  | undefinedFunction (f : String)
  | arityError (f : String) (expected got : Nat)
  | fuelExhausted
  deriving DecidableEq, Repr

/-- Reserved keywords (main.py `COMMAND_KEYWORDS`), used as expression stop
tokens in `SET`. -/
def COMMAND_KEYWORDS : List String :=
  ["SET", "DEFINE", "CALL", "IF", "WHILE", "MOVE", "TURN", "DRAW", "COLOR", "\x7d", "\x7b"]

/-- Remove the first `.` of a token (Python `token.replace('.', '', 1)`). -/
def removeFirstDot : List Char → List Char
  | [] => []
  | c :: r => if c = '.' then r else c :: removeFirstDot r

/-- The numeric-literal test of `parse_factor`:
`token.replace('.', '', 1).isdigit()`. -/
def isNumericTok (t : String) : Bool :=
  let r := removeFirstDot t.toList
  !r.isEmpty && r.all Char.isDigit

/-- `token.isalpha()`. -/
def isAlphaTok (t : String) : Bool :=
  !t.toList.isEmpty && t.toList.all Char.isAlpha

/-- Split a numeric token at its first dot. -/
def splitAtDot : List Char → List Char × List Char
  | [] => ([], [])
  | c :: r => if c = '.' then ([], r) else ((splitAtDot r).1.cons c, (splitAtDot r).2)

/-- Digits to a natural number. -/
def digitsToNat (l : List Char) : Nat :=
  l.foldl (fun a c => a * 10 + (c.toNat - 48)) 0

/-- `float(token)` for a token passing `isNumericTok` (exact value). -/
def pyFloatOfTok (t : String) : PyFloat :=
  let p := splitAtDot t.toList
  PyFloat.norm (Int.ofNat (digitsToNat p.1 * 10 ^ p.2.length + digitsToNat p.2)) (10 ^ p.2.length)

/-! ## Expression parser (main.py lines 120–175)

The three mutually recursive parse functions, with the while-loops of
`parse_expression` / `parse_term` as explicit loop functions.  The fuel
parameter makes the recursion structural; the wrapper supplies more fuel than
any input can consume. -/

mutual

def parseExprF : Nat → List String → Nat → List String → Except Err (Expr × Nat)
  | 0, _, _, _ => .error .fuelExhausted
  | fuel + 1, ts, i, stop =>
    match parseTermF fuel ts i stop with
    | .error e => .error e
    | .ok (node, i1) => parseExprLoopF fuel ts i1 stop node
termination_by structural fuel _ts _i _stop => fuel

def parseExprLoopF : Nat → List String → Nat → List String → Expr → Except Err (Expr × Nat)
  | 0, _, _, _, _ => .error .fuelExhausted
  | fuel + 1, ts, i, stop, node =>
    if h : i < ts.length then
      if (ts[i] = "+" ∨ ts[i] = "-") ∧ ts[i] ∉ stop then
        match parseTermF fuel ts (i + 1) stop with
        | .error e => .error e
        | .ok (right, i2) =>
          parseExprLoopF fuel ts i2 stop (.bin (if ts[i] = "+" then .add else .sub) node right)
      else .ok (node, i)
    else .ok (node, i)
termination_by structural fuel _ts _i _stop _node => fuel

def parseTermF : Nat → List String → Nat → List String → Except Err (Expr × Nat)
  | 0, _, _, _ => .error .fuelExhausted
  | fuel + 1, ts, i, stop =>
    match parseFactorF fuel ts i stop with
    | .error e => .error e
    | .ok (node, i1) => parseTermLoopF fuel ts i1 stop node
termination_by structural fuel _ts _i _stop => fuel

def parseTermLoopF : Nat → List String → Nat → List String → Expr → Except Err (Expr × Nat)
  | 0, _, _, _, _ => .error .fuelExhausted
  | fuel + 1, ts, i, stop, node =>
    if h : i < ts.length then
      if (ts[i] = "*" ∨ ts[i] = "/") ∧ ts[i] ∉ stop then
        match parseFactorF fuel ts (i + 1) stop with
        | .error e => .error e
        | .ok (right, i2) =>
          parseTermLoopF fuel ts i2 stop (.bin (if ts[i] = "*" then .mul else .div) node right)
      else .ok (node, i)
    else .ok (node, i)
termination_by structural fuel _ts _i _stop _node => fuel

def parseFactorF : Nat → List String → Nat → List String → Except Err (Expr × Nat)
  | 0, _, _, _ => .error .fuelExhausted
  | fuel + 1, ts, i, stop =>
    if h : i < ts.length then
      if ts[i] ∈ stop then
        .error (.syntaxError ("Unexpected token \x27" ++ ts[i] ++ "\x27 in expression"))
      else if ts[i] = "(" then
        match parseExprF fuel ts (i + 1) (")" :: stop) with
        | .error e => .error e
        | .ok (node, i1) =>
          if h2 : i1 < ts.length then
            if ts[i1] = ")" then .ok (node, i1 + 1) else .error (.syntaxError "Expected )")
          else .error (.syntaxError "Expected )")
      else if isNumericTok ts[i] then .ok (.num (pyFloatOfTok ts[i]), i + 1)
      else if isAlphaTok ts[i] ∨ ts[i] ∈ COMMAND_KEYWORDS then .ok (.var ts[i], i + 1)
      else .error (.syntaxError ("Unexpected token in expression: " ++ ts[i]))
    else .error (.syntaxError "Unexpected end of tokens in expression")
termination_by structural fuel _ts _i _stop => fuel

end

/-- main.py `parse_expression`, with ample fuel for the fueled core. -/
def parse_expression (ts : List String) (i : Nat) (stop : List String) :
    Except Err (Expr × Nat) :=
  parseExprF (10 * (ts.length + 1)) ts i stop

/-- main.py `parse_full_expression`: the whole slice must be consumed. -/
def parse_full_expression (l : List String) : Except Err Expr :=
  match parse_expression l 0 [] with
  | .error e => .error e
  | .ok (e, i) =>
    if i = l.length then .ok e
    else .error (.syntaxError ("Extra tokens in expression: " ++ String.intercalate " " (l.drop i)))

/-- A parsed condition `left op right` with `op` one of `> < = !=`
(main.py keeps the operator as a string). -/
structure Cond where
  left : Expr
  op : String
  right : Expr
  deriving DecidableEq, Repr

/-- main.py `parse_condition` (lines 224–235). -/
def parse_condition (ts : List String) (i : Nat) : Except Err (Cond × Nat) :=
  match parse_expression ts i [">", "<", "=", "!="] with
  | .error e => .error e
  | .ok (left, i1) =>
    if h : i1 < ts.length then
      if ts[i1] = ">" ∨ ts[i1] = "<" ∨ ts[i1] = "=" ∨ ts[i1] = "!=" then
        match parse_expression ts (i1 + 1) ["\x7b"] with
        | .error e => .error e
        | .ok (right, i2) => .ok (⟨left, ts[i1], right⟩, i2)
      else .error (.syntaxError ("Expected comparison operator, got " ++ ts[i1]))
    else .error (.syntaxError "Expected operator in condition")

/-! ## Evaluators (main.py lines 190–218) -/

/-- main.py `eval_expr`.  A variable lookup defaults to numeric 0 when the
name is absent, but returns the stored value unchanged when present — in
particular a function definition is returned as-is.  In the division case
Python first tests `right != 0` (true for every function-definition value)
and only then divides, so `x / 0` is 0 even before `x` is inspected. -/
def eval_expr (env : Env) : Expr → Except Err Value
  | .num q => .ok (.num q)
  | .var s => .ok ((envGet env s).getD (.num 0))
  | .bin op l r =>
    match eval_expr env l with
    | .error e => .error e
    | .ok lv =>
      match eval_expr env r with
      | .error e => .error e
      | .ok rv =>
        match op with
        | .add =>
          match lv, rv with
          | .num a, .num b => .ok (.num (a + b))
          | _, _ => .error .typeError
        | .sub =>
          match lv, rv with
          | .num a, .num b => .ok (.num (a - b))
          | _, _ => .error .typeError
        | .mul =>
          match lv, rv with
          | .num a, .num b => .ok (.num (a * b))
          | _, _ => .error .typeError
        | .div =>
          if rv = .num 0 then .ok (.num 0)
          else
            match lv, rv with
            | .num a, .num b => .ok (.num (a / b))
            | _, _ => .error .typeError

/-- main.py `eval_condition`.  `>` and `<` on a function-definition value are
a Python TypeError; `=` and `!=` are structural equality (Python dict
equality); an unrecognized operator yields false. -/
def eval_condition (env : Env) (c : Cond) : Except Err Bool :=
  match eval_expr env c.left with
  | .error e => .error e
  | .ok lv =>
    match eval_expr env c.right with
    | .error e => .error e
    | .ok rv =>
      if c.op = ">" then
        match lv, rv with
        | .num a, .num b => .ok (b.ltb a)
        | _, _ => .error .typeError
      else if c.op = "<" then
        match lv, rv with
        | .num a, .num b => .ok (a.ltb b)
        | _, _ => .error .typeError
      else if c.op = "=" then .ok (lv = rv)
      else if c.op = "!=" then .ok (lv ≠ rv)
      else .ok false

/-! ## Block matcher (main.py `find_block_end`, lines 241–250) -/

/-- The scanning loop of `find_block_end`, with the running depth explicit.
The first argument counts the loop iterations still possible (the index
increases by one per iteration, so `ts.length - i` iterations remain);
recursion on it is structural, and the wrapper below supplies exactly that
bound, so the countdown mirrors the unbounded Python loop. -/
def fbeAux (ts : List String) : Nat → Nat → Nat → Nat
  | 0, i, _ => i
  | rem + 1, i, depth =>
    if h : i < ts.length then
      if depth = 0 then i
      else
        fbeAux ts rem (i + 1)
          (if ts[i] = "\x7b" then depth + 1 else if ts[i] = "\x7d" then depth - 1 else depth)
    else i

/-- main.py `find_block_end`: scan from `start` with depth 1 until the depth
returns to zero or the tokens run out; total by construction. -/
def find_block_end (ts : List String) (start : Nat) : Nat :=
  fbeAux ts (ts.length - start) start 1

/-- Python slice `ts[a:b]`. -/
def pySlice (ts : List String) (a b : Nat) : List String :=
  (ts.take b).drop a

/-! ## Cursor, drawing primitives, oracle (main.py lines 24, 256–288) -/

/-- An RGB colour triple. -/
abbrev Color := Nat × Nat × Nat

/-- main.py `COLORS.get(color, (255, 255, 255))`. -/
def colorOfName (s : String) : Color :=
  if s = "Red" then (255, 0, 0)
  else if s = "Blue" then (0, 0, 255)
  else if s = "Green" then (0, 255, 0)
  else if s = "Black" then (0, 0, 0)
  else (255, 255, 255)

/-- The turtle cursor: position, heading in degrees (unbounded), colour. -/
structure Cursor where
  x : PyFloat
  y : PyFloat
  angle : PyFloat
  color : Color
  deriving DecidableEq, Repr

/-- The abstract drawing primitives the core emits. -/
inductive Prim
  | line (p q : PyFloat × PyFloat) (c : Color) (w : Nat)
  | circle (center : Int × Int) (radius : Int) (c : Color) (w : Nat)
  | rect (topleft : Int × Int) (size : Int × Int) (c : Color) (w : Nat)
  | poly (pts : List (PyFloat × PyFloat)) (c : Color) (w : Nat)
  deriving DecidableEq, Repr

/-- External collaborators of the core: `math.cos`, `math.sin`, `math.pi`
and the random colour stream of `COLOR Random` (`random.choice`). -/
structure Oracle where
  cos : PyFloat → PyFloat
  sin : PyFloat → PyFloat
  pi : PyFloat
  rand : Nat → Color

/-- A trivial oracle used to run the concrete test programs of the claims
(none of which invokes MOVE, DRAW Star, or COLOR Random). -/
def defaultOracle : Oracle :=
  ⟨fun _ => 1, fun _ => 0, 0, fun _ => (255, 255, 255)⟩

/-- The full interpreter state: the `symbols` dict, the `call_stack`, the
`cursor`, the drawing primitives emitted so far, and a counter into the
oracle's random colour stream. -/
structure RunState where
  symbols : Env
  callStack : List Env
  cursor : Cursor
  out : List Prim
  rnd : Nat
  deriving DecidableEq, Repr

/-- The initial interpreter state (cursor at the screen centre, white). -/
def initState : RunState :=
  ⟨[], [], ⟨PyFloat.ofInt 400, PyFloat.ofInt 300, 0, (255, 255, 255)⟩, [], 0⟩

/-- Attach the state at the raise point to an error from a pure helper. -/
def liftE (st : RunState) : Except Err α → Except (Err × RunState) α
  | .ok a => .ok a
  | .error e => .error (e, st)

/-- main.py `move_cursor`: update the position along the heading and emit a
line segment from the old to the new position (for an unknown direction the
cursor does not move but a degenerate segment is still drawn). -/
def move_cursor (o : Oracle) (st : RunState) (dist : Value) (dir : String) :
    Except (Err × RunState) RunState :=
  let c := st.cursor
  let rad := c.angle * o.pi / PyFloat.ofInt 180
  if dir = "Forward" then
    match dist with
    | .num d =>
      let nx := c.x + d * o.cos rad
      let ny := c.y + d * o.sin rad
      .ok { st with cursor := { c with x := nx, y := ny },
                    out := st.out ++ [.line (c.x, c.y) (nx, ny) c.color 2] }
    | _ => .error (.typeError, st)
  else if dir = "Backward" then
    match dist with
    | .num d =>
      let nx := c.x - d * o.cos rad
      let ny := c.y - d * o.sin rad
      .ok { st with cursor := { c with x := nx, y := ny },
                    out := st.out ++ [.line (c.x, c.y) (nx, ny) c.color 2] }
    | _ => .error (.typeError, st)
  else .ok { st with out := st.out ++ [.line (c.x, c.y) (c.x, c.y) c.color 2] }

/-- The 10-point star construction of `draw_shape` (main.py lines 280–288),
generic in the numeric type and in the trig functions: for each of the five
outer steps i, one point at radius `size` and angle i*4*pi/5, then one point
at radius `size * 0.5` and the same angle shifted by 2*pi/5. -/
def starPoints {α : Type} [Add α] [Mul α] [Div α] [NatCast α] [OfNat α 2] [OfNat α 4]
    [OfNat α 5] [OfScientific α] (pi : α) (c s : α → α) (pos : α × α) (size : α) :
    List (α × α) :=
  (List.range 5).flatMap (fun i =>
    [(pos.1 + size * c ((i : α) * 4 * pi / 5), pos.2 + size * s ((i : α) * 4 * pi / 5)),
     (pos.1 + size * 0.5 * c ((i : α) * 4 * pi / 5 + 2 * pi / 5),
      pos.2 + size * 0.5 * s ((i : α) * 4 * pi / 5 + 2 * pi / 5))])

/-- `int(...)` of a value: truncate a number, TypeError on a function. -/
def valInt : Value → Except Err Int
  | .num q => .ok q.toPyInt
  | .func _ => .error .typeError

/-- main.py `draw_shape`: position defaults to the cursor, `int()`-truncated;
Circle and Square truncate the size, Star keeps it exact; an unknown shape
draws nothing (but the position conversion has already happened). -/
def draw_shape (o : Oracle) (st : RunState) (shape : String) (size : Value)
    (xv yv : Option Value) : Except (Err × RunState) RunState :=
  match liftE st (match xv with | some v => valInt v | none => .ok st.cursor.x.toPyInt) with
  | .error e => .error e
  | .ok px =>
    match liftE st (match yv with | some v => valInt v | none => .ok st.cursor.y.toPyInt) with
    | .error e => .error e
    | .ok py =>
      if shape = "Circle" then
        match liftE st (valInt size) with
        | .error e => .error e
        | .ok r => .ok { st with out := st.out ++ [.circle (px, py) r st.cursor.color 2] }
      else if shape = "Square" then
        match liftE st (valInt size) with
        | .error e => .error e
        | .ok s =>
          .ok { st with out := st.out ++
            [.rect (px - Int.fdiv s 2, py - Int.fdiv s 2) (s, s) st.cursor.color 2] }
      else if shape = "Star" then
        match size with
        | .num s =>
          .ok { st with out := st.out ++
            [.poly (starPoints o.pi o.cos o.sin (PyFloat.ofInt px, PyFloat.ofInt py) s)
              st.cursor.color 2] }
        | _ => .error (.typeError, st)
      else .ok st

/-! ## Statement interpreter helpers (main.py `interpret`, lines 294–436) -/

/-- `tokens[k]` with Python's IndexError when out of bounds. -/
def tokAt (ts : List String) (k : Nat) : Except Err String :=
  if h : k < ts.length then .ok ts[k] else .error .indexError

/-- The iteration countdown of the `DEFINE` parameter-scanning loop
(main.py lines 313–318): walk from index `j` collecting every token that is
not a comma until the `)`; running off the end of the tokens is Python's
IndexError.  The countdown argument makes the recursion structural; the
wrapper `scanParams` supplies one more than the remaining token count, so
the bound-check branch is always reached before the countdown runs out. -/
def scanParamsAux (ts : List String) : Nat → Nat → List String → Except Err (List String × Nat)
  | 0, _, _ => .error .indexError
  | rem + 1, j, acc =>
    if h : j < ts.length then
      if ts[j] = ")" then .ok (acc, j)
      else if ts[j] = "," then scanParamsAux ts rem (j + 1) acc
      else scanParamsAux ts rem (j + 1) (acc ++ [ts[j]])
    else .error .indexError

/-- The parameter-scanning loop of `DEFINE`, from index `j`. -/
def scanParams (ts : List String) (j : Nat) (acc : List String) :
    Except Err (List String × Nat) :=
  scanParamsAux ts (ts.length + 1 - j) j acc

/-- The iteration countdown of the `CALL` argument-scanning loop (main.py
lines 332–344): collect argument token chunks separated by commas until the
`)`, parsing each chunk with `parse_full_expression` as it is flushed (also
after the loop).  Countdown as in `scanParamsAux`. -/
def scanCallArgsAux (ts : List String) :
    Nat → Nat → List String → List Expr → Except Err (List Expr × Nat)
  | 0, _, _, _ => .error .indexError
  | rem + 1, j, cur, acc =>
    if h : j < ts.length then
      if ts[j] = ")" then
        if cur ≠ [] then
          match parse_full_expression cur with
          | .error e => .error e
          | .ok e => .ok (acc ++ [e], j)
        else .ok (acc, j)
      else if ts[j] = "," then
        if cur ≠ [] then
          match parse_full_expression cur with
          | .error e => .error e
          | .ok e => scanCallArgsAux ts rem (j + 1) [] (acc ++ [e])
        else scanCallArgsAux ts rem (j + 1) [] acc
      else scanCallArgsAux ts rem (j + 1) (cur ++ [ts[j]]) acc
    else .error .indexError

/-- The argument-scanning loop of `CALL`, from index `j`. -/
def scanCallArgs (ts : List String) (j : Nat) (cur : List String) (acc : List Expr) :
    Except Err (List Expr × Nat) :=
  scanCallArgsAux ts (ts.length + 1 - j) j cur acc

/-- The expression stop-token set of the `DRAW` statement. -/
def DRAW_STOPS : List String :=
  ["AT", "SET", "DEFINE", "CALL", "IF", "WHILE", "MOVE", "TURN", "DRAW", "COLOR", "\x7d"]

/-- Evaluate the parsed call arguments in order against the caller's
environment (the `local_scope` loop of the `CALL` branch, main.py lines
352–354), stopping at the first error. -/
def evalArgs (env : Env) : List Expr → Except Err (List Value)
  | [] => .ok []
  | e :: r =>
    match eval_expr env e with
    | .error err => .error err
    | .ok v =>
      match evalArgs env r with
      | .error err => .error err
      | .ok vs => .ok (v :: vs)

/-! ## The statement interpreter (main.py `interpret`)

`interp fuel o st ts i` walks `ts` from index `i`, dispatching on the token,
exactly as the Python while-loop does; `whileLoop` is the inner
`while eval_condition(cond): interpret(body)` loop of the `WHILE` statement.
An error result carries the state at the raise point (in Python the global
state simply remains as it was when the exception escaped). -/

mutual

def interp : Nat → Oracle → RunState → List String → Nat → Except (Err × RunState) RunState
  | 0, _, st, _, _ => .error (.fuelExhausted, st)
  | fuel + 1, o, st, ts, i =>
    if h : i < ts.length then
      if ts[i] = "SET" then
        match liftE st (tokAt ts (i + 1)) with
        | .error e => .error e
        | .ok v =>
          match liftE st (tokAt ts (i + 2)) with
          | .error e => .error e
          | .ok eq =>
            if eq ≠ "=" then .error (.syntaxError "Expected \x27=\x27 in SET statement", st)
            else
              match liftE st (parse_expression ts (i + 3) COMMAND_KEYWORDS) with
              | .error e => .error e
              | .ok (expr, ni) =>
                match liftE st (eval_expr st.symbols expr) with
                | .error e => .error e
                | .ok value => interp fuel o { st with symbols := envSet st.symbols v value } ts ni
      else if ts[i] = "DEFINE" then
        match liftE st (tokAt ts (i + 1)) with
        | .error e => .error e
        | .ok name =>
          match liftE st (tokAt ts (i + 2)) with
          | .error e => .error e
          | .ok p =>
            if p ≠ "(" then
              .error (.syntaxError "Expected ( after function name in DEFINE", st)
            else
              match liftE st (scanParams ts (i + 3) []) with
              | .error e => .error e
              | .ok (params, j) =>
                match liftE st (tokAt ts (j + 1)) with
                | .error e => .error e
                | .ok b =>
                  if b ≠ "\x7b" then
                    .error (.syntaxError "Expected \x7b to start function body", st)
                  else
                    let bodyEnd := find_block_end ts (j + 2)
                    let funcBody := pySlice ts (j + 2) (bodyEnd - 1)
                    interp fuel o
                      { st with symbols := envSet st.symbols name (.func ⟨params, funcBody⟩) }
                      ts bodyEnd
      else if ts[i] = "CALL" then
        match liftE st (tokAt ts (i + 1)) with
        | .error e => .error e
        | .ok fname =>
          match liftE st (tokAt ts (i + 2)) with
          | .error e => .error e
          | .ok p =>
            if p ≠ "(" then .error (.syntaxError "Expected ( in function call", st)
            else
              match liftE st (scanCallArgs ts (i + 3) [] []) with
              | .error e => .error e
              | .ok (args, j) =>
                match envGet st.symbols fname with
                | none => .error (.undefinedFunction fname, st)
                | some (.num _) => .error (.typeError, st)
                | some (.func fd) =>
                  if args.length ≠ fd.params.length then
                    .error (.arityError fname fd.params.length args.length, st)
                  else
                    match liftE st (evalArgs st.symbols args) with
                    | .error e => .error e
                    | .ok vals =>
                      match interp fuel o
                          { st with callStack := st.callStack ++ [st.symbols],
                                    symbols := envUpdate st.symbols (fd.params.zip vals) }
                          fd.body 0 with
                      | .error e => .error e
                      | .ok st2 =>
                        match st2.callStack.getLast? with
                        | none => .error (.indexError, { st2 with symbols := [] })
                        | some snap =>
                          interp fuel o
                            { st2 with symbols := snap, callStack := st2.callStack.dropLast }
                            ts (j + 1)
      else if ts[i] = "IF" then
        match liftE st (parse_condition ts (i + 1)) with
        | .error e => .error e
        | .ok (cond, ni) =>
          match liftE st (tokAt ts ni) with
          | .error e => .error e
          | .ok b =>
            if b ≠ "\x7b" then .error (.syntaxError "Expected \x7b after IF condition", st)
            else
              let blockEnd := find_block_end ts (ni + 1)
              match liftE st (eval_condition st.symbols cond) with
              | .error e => .error e
              | .ok cv =>
                if cv then
                  match interp fuel o st (pySlice ts (ni + 1) (blockEnd - 1)) 0 with
                  | .error e => .error e
                  | .ok st2 => interp fuel o st2 ts blockEnd
                else interp fuel o st ts blockEnd
      else if ts[i] = "WHILE" then
        match liftE st (parse_condition ts (i + 1)) with
        | .error e => .error e
        | .ok (cond, ni) =>
          match liftE st (tokAt ts ni) with
          | .error e => .error e
          | .ok b =>
            if b ≠ "\x7b" then .error (.syntaxError "Expected \x7b after WHILE condition", st)
            else
              let blockEnd := find_block_end ts (ni + 1)
              match whileLoop fuel o cond (pySlice ts (ni + 1) (blockEnd - 1)) st with
              | .error e => .error e
              | .ok st2 => interp fuel o st2 ts blockEnd
      else if ts[i] = "MOVE" then
        match liftE st (parse_expression ts (i + 1) ["Forward", "Backward"]) with
        | .error e => .error e
        | .ok (expr, ni) =>
          match liftE st (eval_expr st.symbols expr) with
          | .error e => .error e
          | .ok dv =>
            match liftE st (tokAt ts ni) with
            | .error e => .error e
            | .ok dir =>
              match move_cursor o st dv dir with
              | .error e => .error e
              | .ok st2 => interp fuel o st2 ts (ni + 1)
      else if ts[i] = "TURN" then
        match liftE st (parse_expression ts (i + 1) ["Right", "Left"]) with
        | .error e => .error e
        | .ok (expr, ni) =>
          match liftE st (eval_expr st.symbols expr) with
          | .error e => .error e
          | .ok av =>
            match liftE st (tokAt ts ni) with
            | .error e => .error e
            | .ok dir =>
              if dir = "Right" then
                match av with
                | .num a =>
                  interp fuel o
                    { st with cursor := { st.cursor with angle := st.cursor.angle + a } }
                    ts (ni + 1)
                | _ => .error (.typeError, st)
              else if dir = "Left" then
                match av with
                | .num a =>
                  interp fuel o
                    { st with cursor := { st.cursor with angle := st.cursor.angle - a } }
                    ts (ni + 1)
                | _ => .error (.typeError, st)
              else interp fuel o st ts (ni + 1)
      else if ts[i] = "DRAW" then
        match liftE st (tokAt ts (i + 1)) with
        | .error e => .error e
        | .ok shape =>
          match liftE st (parse_expression ts (i + 2) DRAW_STOPS) with
          | .error e => .error e
          | .ok (expr, ni) =>
            match liftE st (eval_expr st.symbols expr) with
            | .error e => .error e
            | .ok size =>
              if hAt : ni < ts.length ∧ ts.getD ni "" = "AT" then
                match liftE st (parse_expression ts (ni + 1) [","]) with
                | .error e => .error e
                | .ok (xe, i1) =>
                  match liftE st (eval_expr st.symbols xe) with
                  | .error e => .error e
                  | .ok xval =>
                    match liftE st (tokAt ts i1) with
                    | .error e => .error e
                    | .ok ct =>
                      let i2 := if ct = "," then i1 + 1 else i1
                      match liftE st (parse_expression ts i2 COMMAND_KEYWORDS) with
                      | .error e => .error e
                      | .ok (ye, i3) =>
                        match liftE st (eval_expr st.symbols ye) with
                        | .error e => .error e
                        | .ok yval =>
                          match draw_shape o st shape size (some xval) (some yval) with
                          | .error e => .error e
                          | .ok st2 => interp fuel o st2 ts i3
              else
                match draw_shape o st shape size none none with
                | .error e => .error e
                | .ok st2 => interp fuel o st2 ts ni
      else if ts[i] = "COLOR" then
        match liftE st (tokAt ts (i + 1)) with
        | .error e => .error e
        | .ok cname =>
          if cname = "Random" then
            interp fuel o
              { st with cursor := { st.cursor with color := o.rand st.rnd }, rnd := st.rnd + 1 }
              ts (i + 2)
          else
            interp fuel o { st with cursor := { st.cursor with color := colorOfName cname } }
              ts (i + 2)
      else interp fuel o st ts (i + 1)
    else .ok st
termination_by structural fuel _o _st _ts _i => fuel

def whileLoop : Nat → Oracle → Cond → List String → RunState → Except (Err × RunState) RunState
  | 0, _, _, _, st => .error (.fuelExhausted, st)
  | fuel + 1, o, cond, body, st =>
    match liftE st (eval_condition st.symbols cond) with
    | .error e => .error e
    | .ok cv =>
      if cv then
        match interp fuel o st body 0 with
        | .error e => .error e
        | .ok st2 => whileLoop fuel o cond body st2
      else .ok st
termination_by structural fuel _o _cond _body _st => fuel

end

/-- Tokenize a source string and interpret it from the initial state. -/
def runProgram (fuel : Nat) (o : Oracle) (code : String) : Except (Err × RunState) RunState :=
  interp fuel o initState (tokenize code.toList) 0

/-! # Theorems for the claims -/

/-- The statement walk ends as soon as the index reaches the end of the
token list (with any fuel left). -/
theorem interp_past_end (fuel : Nat) (o : Oracle) (st : RunState) (ts : List String)
    (i : Nat) (hfuel : 0 < fuel) (hi : ts.length ≤ i) :
    interp fuel o st ts i = .ok st := by
  cases fuel with
  | zero => omega
  | succ f =>
    rw [interp.eq_def]
    exact dif_neg (by omega)

/-- Claim C2, amended: evaluating a name yields the bound numeric value when
the environment binds it to a number, and 0 when the name is absent; but when
the name is bound to a function definition, `eval_expr` returns the function
definition value itself (`symbols.get(expr, 0)` returns the stored value
unchanged), not 0. -/
theorem c2_name_lookup_amended (env : Env) (s : String) :
    (envGet env s = none → eval_expr env (.var s) = .ok (.num 0)) ∧
    (∀ q : PyFloat, envGet env s = some (.num q) → eval_expr env (.var s) = .ok (.num q)) ∧
    (∀ fd : FuncDef, envGet env s = some (.func fd) → eval_expr env (.var s) = .ok (.func fd)) := by
  refine ⟨fun h => ?_, fun q h => ?_, fun fd h => ?_⟩ <;> simp [eval_expr, h]

/-- Witness for C2 (amended): the three lookup outcomes at concrete inputs. -/
theorem c2_name_lookup_amended_witness :
    eval_expr [] (.var "x") = .ok (.num 0) ∧
    eval_expr [("x", .num 7)] (.var "x") = .ok (.num 7) ∧
    eval_expr [("f", .func ⟨[], []⟩)] (.var "f") = .ok (.func ⟨[], []⟩) :=
  ⟨(c2_name_lookup_amended [] "x").1 (by decide),
   (c2_name_lookup_amended [("x", .num 7)] "x").2.1 7 (by decide),
   (c2_name_lookup_amended [("f", .func ⟨[], []⟩)] "f").2.2 ⟨[], []⟩ (by decide)⟩

/-- Counterexample to claim C2 as stated: a name bound to a function
definition evaluates to the function-definition value, not to 0. -/
theorem c2_func_name_counterexample :
    eval_expr [("f", .func ⟨[], []⟩)] (.var "f") = .ok (.func ⟨[], []⟩) ∧
    eval_expr [("f", .func ⟨[], []⟩)] (.var "f") ≠ .ok (.num 0) := by
  decide

/-- Claim C3: whenever the divisor subexpression evaluates to the number 0
(and the dividend evaluates to any value at all), the division node
evaluates to 0 and does not raise. -/
theorem c3_division_by_zero (env : Env) (l r : Expr) (vl : Value)
    (hl : eval_expr env l = .ok vl) (hr : eval_expr env r = .ok (.num 0)) :
    eval_expr env (.bin .div l r) = .ok (.num 0) := by
  simp [eval_expr, hl, hr]

/-- Witness for C3: 5 / 0 evaluates to 0. -/
theorem c3_division_by_zero_witness :
    eval_expr [] (.bin .div (.num 5) (.num 0)) = .ok (.num 0) :=
  c3_division_by_zero [] (.num 5) (.num 0) (.num 5) (by decide) (by decide)

/-- Claim C4: the parser gives `*`/`/` higher precedence than `+`/`-` and
makes both levels left-associative — `2 + 3 * 4` parses as `2 + (3 * 4)` and
evaluates to 14, `( 2 + 3 ) * 4` parses as `(2 + 3) * 4` and evaluates to 20,
and `10 - 3 - 2` parses as `(10 - 3) - 2` and evaluates to 5, not 9. -/
theorem c4_precedence_associativity :
    parse_full_expression (tokenize "2 + 3 * 4".toList) =
      .ok (.bin .add (.num 2) (.bin .mul (.num 3) (.num 4))) ∧
    (parse_full_expression (tokenize "2 + 3 * 4".toList)).map (eval_expr []) =
      .ok (.ok (.num 14)) ∧
    parse_full_expression (tokenize "( 2 + 3 ) * 4".toList) =
      .ok (.bin .mul (.bin .add (.num 2) (.num 3)) (.num 4)) ∧
    (parse_full_expression (tokenize "( 2 + 3 ) * 4".toList)).map (eval_expr []) =
      .ok (.ok (.num 20)) ∧
    parse_full_expression (tokenize "10 - 3 - 2".toList) =
      .ok (.bin .sub (.bin .sub (.num 10) (.num 3)) (.num 2)) ∧
    (parse_full_expression (tokenize "10 - 3 - 2".toList)).map (eval_expr []) =
      .ok (.ok (.num 5)) ∧
    (parse_full_expression (tokenize "10 - 3 - 2".toList)).map (eval_expr []) ≠
      .ok (.ok (.num 9)) := by
  decide

/-- The body tokens of the claim C6 loop. -/
def c6Body : List String := ["SET", "i", "=", "i", "+", "1"]

/-- The parsed condition `i < 5` of the claim C6 loop. -/
def c6Cond : Cond := ⟨.var "i", "<", .num 5⟩

/-- The interpreter state after `k` iterations of the claim C6 loop. -/
def c6State (k : Nat) : RunState :=
  { symbols := [("i", .num ⟨k, 1⟩)], callStack := [], cursor := initState.cursor,
    out := [], rnd := 0 }

/-- Claim C6: `SET i = 0 WHILE i < 5 \x7b SET i = i + 1 \x7d` terminates with
i bound to 5, and the body runs exactly 5 times: the condition is
re-evaluated before each iteration — true in the states i = 0..4, false in
the state i = 5 — each of the five body executions steps state k to state
k+1, the WHILE loop chains exactly those five steps, and the whole program
ends in the i = 5 state. -/
theorem c6_while_runs_five_times :
    tokenize "SET i = 0 WHILE i < 5 \x7b SET i = i + 1 \x7d".toList =
      ["SET", "i", "=", "0", "WHILE", "i", "<", "5", "\x7b",
       "SET", "i", "=", "i", "+", "1", "\x7d"] ∧
    parse_condition ["SET", "i", "=", "0", "WHILE", "i", "<", "5", "\x7b",
       "SET", "i", "=", "i", "+", "1", "\x7d"] 5 = .ok (c6Cond, 8) ∧
    find_block_end ["SET", "i", "=", "0", "WHILE", "i", "<", "5", "\x7b",
       "SET", "i", "=", "i", "+", "1", "\x7d"] 9 = 16 ∧
    pySlice ["SET", "i", "=", "0", "WHILE", "i", "<", "5", "\x7b",
       "SET", "i", "=", "i", "+", "1", "\x7d"] 9 15 = c6Body ∧
    (∀ k ∈ List.range 5, eval_condition (c6State k).symbols c6Cond = .ok true) ∧
    eval_condition (c6State 5).symbols c6Cond = .ok false ∧
    (∀ k ∈ List.range 5, interp 20 defaultOracle (c6State k) c6Body 0 = .ok (c6State (k + 1))) ∧
    whileLoop 20 defaultOracle c6Cond c6Body (c6State 0) = .ok (c6State 5) ∧
    interp 40 defaultOracle initState
      (tokenize "SET i = 0 WHILE i < 5 \x7b SET i = i + 1 \x7d".toList) 0 = .ok (c6State 5) := by
  decide

/-- Claim C9: the star of size `size` at `pos` is a list of exactly 10
points, alternating outer and inner vertices: for k = 0..4 the k-th outer
vertex (index 2k) lies at angle k * (4π/5) and radius `size` from `pos`, its
paired inner vertex (index 2k+1) at angle k * (4π/5) + 2π/5 and radius
`size * 0.5`, and the first outer vertex (index 0) at angle 0; and `DRAW`
of a Star emits exactly one polygon-outline primitive built from these
points.  Stated over any field equipped with arbitrary cosine/sine
functions and any value of π, since the construction is purely structural. -/
theorem c9_star_points {α : Type} [Field α] (pi : α) (c s : α → α) (pos : α × α)
    (size : α) (k : Nat) (hk : k < 5) :
    (starPoints pi c s pos size).length = 10 ∧
    (starPoints pi c s pos size)[2 * k]? =
      some (pos.1 + size * c ((k : α) * (4 * pi / 5)),
            pos.2 + size * s ((k : α) * (4 * pi / 5))) ∧
    (starPoints pi c s pos size)[2 * k + 1]? =
      some (pos.1 + size * 0.5 * c ((k : α) * (4 * pi / 5) + 2 * pi / 5),
            pos.2 + size * 0.5 * s ((k : α) * (4 * pi / 5) + 2 * pi / 5)) ∧
    (starPoints pi c s pos size)[0]? =
      some (pos.1 + size * c 0, pos.2 + size * s 0) ∧
    (∀ (o : Oracle) (st : RunState) (sz : PyFloat),
      draw_shape o st "Star" (.num sz) none none =
        .ok { st with out := st.out ++
          [.poly (starPoints o.pi o.cos o.sin
            (PyFloat.ofInt st.cursor.x.toPyInt, PyFloat.ofInt st.cursor.y.toPyInt) sz)
            st.cursor.color 2] }) := by
  rw [starPoints, (show List.range 5 = [0, 1, 2, 3, 4] by decide)]
  refine ⟨by simp, ?_, ?_, ?_, ?_⟩
  · interval_cases k <;> (simp; try norm_num; try ring_nf; try simp)
  · interval_cases k <;> (simp; try norm_num; try ring_nf; try simp)
  · simp
  · intro o st sz
    simp [draw_shape, valInt, liftE]

/-- Witness for C9 at a concrete field instance (ℚ, with identity trig
functions and π = 3): the hypothesis k = 2 < 5 and two of the statement's
conclusions. -/
theorem c9_star_points_witness :
    2 < 5 ∧ (starPoints (3 : ℚ) id id ((0 : ℚ), (0 : ℚ)) 1).length = 10 ∧
    (starPoints (3 : ℚ) id id ((0 : ℚ), (0 : ℚ)) 1)[2 * 2]? =
      some ((0 : ℚ) + 1 * id ((2 : ℚ) * (4 * 3 / 5)), (0 : ℚ) + 1 * id ((2 : ℚ) * (4 * 3 / 5))) :=
  ⟨by decide, (c9_star_points 3 id id (0, 0) 1 2 (by decide)).1,
   (c9_star_points 3 id id (0, 0) 1 2 (by decide)).2.1⟩

/-- Claim C1, amended: returning from a `CALL` replaces the live environment
wholesale by the snapshot of the caller's environment pushed just before the
call, so after the call the environment (and the call stack) are exactly as
before the call — with no exception whatsoever: in particular a `SET` inside
the body against a name colliding with a parameter does NOT survive the
restoration (only the cursor, the emitted primitives and the random counter
carry over from the body's execution). -/
theorem c1_call_restores_caller_env (fuel : Nat) (o : Oracle) (st : RunState)
    (f : String) (rest : List String) (args : List Expr) (j : Nat)
    (fd : FuncDef) (vals : List Value) (stB : RunState)
    (hfuel : 0 < fuel)
    (hscan : scanCallArgs ("CALL" :: f :: "(" :: rest) 3 [] [] = .ok (args, j))
    (hlook : envGet st.symbols f = some (.func fd))
    (hlen : args.length = fd.params.length)
    (hvals : evalArgs st.symbols args = .ok vals)
    (hbody : interp fuel o
        { st with callStack := st.callStack ++ [st.symbols],
                  symbols := envUpdate st.symbols (fd.params.zip vals) } fd.body 0 = .ok stB)
    (hstack : stB.callStack = st.callStack ++ [st.symbols])
    (hj : j + 1 = ("CALL" :: f :: "(" :: rest).length) :
    interp (fuel + 1) o st ("CALL" :: f :: "(" :: rest) 0 =
      .ok { stB with symbols := st.symbols, callStack := st.callStack } := by
  simp [interp, tokAt, liftE, hscan, hlook, hlen, hvals, hbody, hstack,
        List.getLast?_concat, List.dropLast_concat]
  rw [hj]
  exact interp_past_end fuel o _ _ _ hfuel (le_refl _)

/-- Witness for C1 (amended): the spec's own test — caller environment
`x = 1`, `f ( x ) \x7b SET x = 99 \x7d`, `CALL f ( 5 )` — restores `x = 1`. -/
theorem c1_call_restores_caller_env_witness :
    0 < 2 ∧
    interp 3 defaultOracle
      { symbols := [("x", .num 1), ("f", .func ⟨["x"], ["SET", "x", "=", "99"]⟩)],
        callStack := [], cursor := initState.cursor, out := [], rnd := 0 }
      ["CALL", "f", "(", "5", ")"] 0 =
      .ok { symbols := [("x", .num 1), ("f", .func ⟨["x"], ["SET", "x", "=", "99"]⟩)],
            callStack := [], cursor := initState.cursor, out := [], rnd := 0 } :=
  ⟨by decide,
   c1_call_restores_caller_env 2 defaultOracle
     { symbols := [("x", .num 1), ("f", .func ⟨["x"], ["SET", "x", "=", "99"]⟩)],
       callStack := [], cursor := initState.cursor, out := [], rnd := 0 }
     "f" ["5", ")"] [.num 5] 4 ⟨["x"], ["SET", "x", "=", "99"]⟩ [.num 5]
     { symbols := [("x", .num 99), ("f", .func ⟨["x"], ["SET", "x", "=", "99"]⟩)],
       callStack := [[("x", .num 1), ("f", .func ⟨["x"], ["SET", "x", "=", "99"]⟩)]],
       cursor := initState.cursor, out := [], rnd := 0 }
     (by decide) (by decide) (by decide) (by decide) (by decide) (by decide)
     (by decide) (by decide)⟩

/-- Counterexample to claim C1 as stated: in the spec's own test the `SET`
inside the body against the parameter-colliding name `x` does NOT survive
the restoration — after the call `x` is 1, not 99, so the claim's stated
exception is false (the restoration is exact, with no exception). -/
theorem c1_param_set_survival_counterexample :
    interp 30 defaultOracle initState
      (tokenize "SET x = 1 DEFINE f ( x ) \x7b SET x = 99 \x7d CALL f ( 5 )".toList) 0 =
      .ok { symbols := [("x", .num 1), ("f", .func ⟨["x"], ["SET", "x", "=", "99"]⟩)],
            callStack := [], cursor := initState.cursor, out := [], rnd := 0 } ∧
    envGet [("x", .num 1), ("f", .func ⟨["x"], ["SET", "x", "=", "99"]⟩)] "x" =
      some (.num 1) ∧
    envGet [("x", .num 1), ("f", .func ⟨["x"], ["SET", "x", "=", "99"]⟩)] "x" ≠
      some (.num 99) := by
  decide

/-- Claim C5: a `CALL` to an undefined function, and a `CALL` whose parsed
argument count differs from the function's parameter count, abort with the
corresponding fatal error before any mutation — the error carries the state
exactly as it was at the statement: environment, call stack, cursor and
emitted primitives unchanged, and the body never interpreted. -/
theorem c5_call_arity_and_undefined (fuel : Nat) (o : Oracle) (st : RunState)
    (f : String) (rest : List String) (args : List Expr) (j : Nat)
    (hscan : scanCallArgs ("CALL" :: f :: "(" :: rest) 3 [] [] = .ok (args, j)) :
    (envGet st.symbols f = none →
      interp (fuel + 1) o st ("CALL" :: f :: "(" :: rest) 0 =
        .error (.undefinedFunction f, st)) ∧
    (∀ fd : FuncDef, envGet st.symbols f = some (.func fd) →
      args.length ≠ fd.params.length →
      interp (fuel + 1) o st ("CALL" :: f :: "(" :: rest) 0 =
        .error (.arityError f fd.params.length args.length, st)) := by
  constructor
  · intro hlook
    simp [interp, tokAt, liftE, hscan, hlook]
  · intro fd hlook hlen
    simp [interp, tokAt, liftE, hscan, hlook, hlen]

/-- Witness for C5: calling the undefined `h` errors with
`undefinedFunction`, and calling a 2-parameter `g` with 1 argument errors
with the arity error, both leaving the state untouched. -/
theorem c5_call_arity_and_undefined_witness :
    interp 1 defaultOracle initState ["CALL", "h", "(", "1", ")"] 0 =
      .error (.undefinedFunction "h", initState) ∧
    interp 1 defaultOracle
      { symbols := [("g", .func ⟨["a", "b"], []⟩)], callStack := [],
        cursor := initState.cursor, out := [], rnd := 0 }
      ["CALL", "g", "(", "1", ")"] 0 =
      .error (.arityError "g" 2 1,
        { symbols := [("g", .func ⟨["a", "b"], []⟩)], callStack := [],
          cursor := initState.cursor, out := [], rnd := 0 }) :=
  ⟨(c5_call_arity_and_undefined 0 defaultOracle initState "h" ["1", ")"] [.num 1] 4
      (by decide)).1 (by decide),
   (c5_call_arity_and_undefined 0 defaultOracle
      { symbols := [("g", .func ⟨["a", "b"], []⟩)], callStack := [],
        cursor := initState.cursor, out := [], rnd := 0 }
      "g" ["1", ")"] [.num 1] 4 (by decide)).2 ⟨["a", "b"], []⟩ (by decide) (by decide)⟩

/-- Claim C7: each of the malformed statement headers — a `SET` whose third
token is present but not `=`, a `DEFINE` whose name is followed by a token
other than `(` or whose scanned parameter list is followed by a token other
than `\x7b`, a `CALL` whose name is followed by a token other than `(`, and
an `IF` or `WHILE` whose parsed condition is followed by a token other than
`\x7b` — aborts the run with the corresponding `syntaxError` (not with any
other error kind), leaving the state untouched. -/
theorem c7_malformed_headers (fuel : Nat) (o : Oracle) (st : RunState) :
    (∀ (x b : String) (rest : List String), b ≠ "=" →
      interp (fuel + 1) o st ("SET" :: x :: b :: rest) 0 =
        .error (.syntaxError "Expected \x27=\x27 in SET statement", st)) ∧
    (∀ (x b : String) (rest : List String), b ≠ "(" →
      interp (fuel + 1) o st ("DEFINE" :: x :: b :: rest) 0 =
        .error (.syntaxError "Expected ( after function name in DEFINE", st)) ∧
    (∀ (x b : String) (rest : List String), b ≠ "(" →
      interp (fuel + 1) o st ("CALL" :: x :: b :: rest) 0 =
        .error (.syntaxError "Expected ( in function call", st)) ∧
    (∀ (f : String) (rest ps : List String) (j : Nat),
      scanParams ("DEFINE" :: f :: "(" :: rest) 3 [] = .ok (ps, j) →
      ∀ hj : j + 1 < ("DEFINE" :: f :: "(" :: rest).length,
      ("DEFINE" :: f :: "(" :: rest)[j + 1] ≠ "\x7b" →
      interp (fuel + 1) o st ("DEFINE" :: f :: "(" :: rest) 0 =
        .error (.syntaxError "Expected \x7b to start function body", st)) ∧
    (∀ (rest : List String) (c : Cond) (ni : Nat),
      parse_condition ("IF" :: rest) 1 = .ok (c, ni) →
      ∀ hni : ni < ("IF" :: rest).length, ("IF" :: rest)[ni] ≠ "\x7b" →
      interp (fuel + 1) o st ("IF" :: rest) 0 =
        .error (.syntaxError "Expected \x7b after IF condition", st)) ∧
    (∀ (rest : List String) (c : Cond) (ni : Nat),
      parse_condition ("WHILE" :: rest) 1 = .ok (c, ni) →
      ∀ hni : ni < ("WHILE" :: rest).length, ("WHILE" :: rest)[ni] ≠ "\x7b" →
      interp (fuel + 1) o st ("WHILE" :: rest) 0 =
        .error (.syntaxError "Expected \x7b after WHILE condition", st)) := by
  refine ⟨fun x b rest hb => ?_, fun x b rest hb => ?_, fun x b rest hb => ?_,
         fun f rest ps j hscan hj hb => ?_, fun rest c ni hc hni hb => ?_,
         fun rest c ni hc hni hb => ?_⟩
  · simp [interp, tokAt, liftE, hb]
  · simp [interp, tokAt, liftE, hb]
  · simp [interp, tokAt, liftE, hb]
  · have hj' : j < rest.length + 2 := by simpa using hj
    have hb' := hb
    simp only [List.getElem_cons_succ] at hb'
    simp [interp, tokAt, liftE, hscan, hj', hb']
  · have hni' : ni < rest.length + 1 := by simpa using hni
    simp [interp, tokAt, liftE, hc, hni', hb]
  · have hni' : ni < rest.length + 1 := by simpa using hni
    simp [interp, tokAt, liftE, hc, hni', hb]

/-- Witness for C7: one concrete malformed header of each kind, each
aborting with its `syntaxError`. -/
theorem c7_malformed_headers_witness :
    interp 1 defaultOracle initState ["SET", "x", "5"] 0 =
      .error (.syntaxError "Expected \x27=\x27 in SET statement", initState) ∧
    interp 1 defaultOracle initState ["DEFINE", "f", "x"] 0 =
      .error (.syntaxError "Expected ( after function name in DEFINE", initState) ∧
    interp 1 defaultOracle initState ["CALL", "f", "x"] 0 =
      .error (.syntaxError "Expected ( in function call", initState) ∧
    interp 1 defaultOracle initState ["DEFINE", "f", "(", ")", "x"] 0 =
      .error (.syntaxError "Expected \x7b to start function body", initState) ∧
    interp 1 defaultOracle initState ["IF", "1", ">", "2", "x"] 0 =
      .error (.syntaxError "Expected \x7b after IF condition", initState) ∧
    interp 1 defaultOracle initState ["WHILE", "1", ">", "2", "x"] 0 =
      .error (.syntaxError "Expected \x7b after WHILE condition", initState) :=
  ⟨(c7_malformed_headers 0 defaultOracle initState).1 "x" "5" [] (by decide),
   (c7_malformed_headers 0 defaultOracle initState).2.1 "f" "x" [] (by decide),
   (c7_malformed_headers 0 defaultOracle initState).2.2.1 "f" "x" [] (by decide),
   (c7_malformed_headers 0 defaultOracle initState).2.2.2.1 "f" [")", "x"] [] 3
     (by decide) (by decide) (by decide),
   (c7_malformed_headers 0 defaultOracle initState).2.2.2.2.1 ["1", ">", "2", "x"]
     ⟨.num 1, ">", .num 2⟩ 4 (by decide) (by decide) (by decide),
   (c7_malformed_headers 0 defaultOracle initState).2.2.2.2.2 ["1", ">", "2", "x"]
     ⟨.num 1, ">", .num 2⟩ 4 (by decide) (by decide) (by decide)⟩

/-! ## The block matcher: specification-side matching-brace function

`closeFrom l d` is the reference notion of "the matching closing brace":
scanning the remaining tokens `l` with `d` braces currently open, it returns
the offset just past the token at which the running depth first returns to
zero, or `none` when the depth never does. -/

/-- Offset just past the point where the brace depth first reaches zero. -/
def closeFrom : List String → Nat → Option Nat
  | _, 0 => some 0
  | [], _ + 1 => none
  | t :: rest, d + 1 =>
    (closeFrom rest (if t = "\x7b" then d + 2 else if t = "\x7d" then d else d + 1)).map (· + 1)

/-- The fueled scanning loop agrees with the reference function: it stops
just past the depth-zero point when one exists and at the end of the tokens
otherwise. -/
theorem fbeAux_eq_closeFrom (ts : List String) (rem : Nat) :
    ∀ (i d : Nat), i ≤ ts.length → ts.length - i ≤ rem →
      fbeAux ts rem i d =
        match closeFrom (ts.drop i) d with
        | some off => i + off
        | none => ts.length := by
  induction rem with
  | zero =>
    intro i d hi hrem
    have hi' : i = ts.length := by omega
    subst hi'
    cases d <;> simp [fbeAux, List.drop_length, closeFrom]
  | succ rem ih =>
    intro i d hi hrem
    by_cases h : i < ts.length
    · rw [List.drop_eq_getElem_cons h]
      cases d with
      | zero => simp [fbeAux, h, closeFrom]
      | succ d0 =>
        rw [fbeAux, dif_pos h, if_neg (by omega), closeFrom,
          ih (i + 1) _ (by omega) (by omega)]
        rw [(by omega : d0 + 1 + 1 = d0 + 2), (by omega : d0 + 1 - 1 = d0)]
        cases hc : closeFrom (ts.drop (i + 1))
            (if ts[i] = "\x7b" then d0 + 2 else if ts[i] = "\x7d" then d0 else d0 + 1) with
        | none => simp
        | some off => simp; ring
    · have hi' : i = ts.length := by omega
      subst hi'
      cases d <;> simp [fbeAux, h, List.drop_length, closeFrom]

/-- When the reference function finds a match, the matched position is a
closing brace: the offset is positive, within the list, and the token just
before it is the closing brace. -/
theorem closeFrom_some (l : List String) :
    ∀ (d off : Nat), 0 < d → closeFrom l d = some off →
      0 < off ∧ off ≤ l.length ∧ l[off - 1]? = some "\x7d" := by
  induction l with
  | nil =>
    intro d off hd h
    cases d with
    | zero => omega
    | succ d0 => simp [closeFrom] at h
  | cons t rest ih =>
    intro d off hd h
    cases d with
    | zero => omega
    | succ d0 =>
      rw [closeFrom] at h
      cases hc : closeFrom rest (if t = "\x7b" then d0 + 2 else if t = "\x7d" then d0 else d0 + 1) with
      | none => rw [hc] at h; simp at h
      | some off' =>
        rw [hc] at h
        simp at h
        subst h
        by_cases hz : (if t = "\x7b" then d0 + 2 else if t = "\x7d" then d0 else d0 + 1) = 0
        · have ht : t = "\x7d" := by
            by_cases h1 : t = "\x7b"
            · rw [if_pos h1] at hz; omega
            · by_cases h2 : t = "\x7d"
              · exact h2
              · rw [if_neg h1, if_neg h2] at hz; omega
          rw [hz] at hc
          rw [closeFrom] at hc
          simp at hc
          subst hc
          simp [ht]
        · have hoff' := ih _ off' (by omega) hc
          refine ⟨by omega, by simp; omega, ?_⟩
          have hoe : off' + 1 - 1 = (off' - 1) + 1 := by omega
          rw [hoe, List.getElem?_cons_succ]
          exact hoff'.2.2

/-- A token list containing no brace token keeps the depth positive all the
way, so no matching close exists. -/
theorem closeFrom_braceFree (l : List String) :
    ∀ d : Nat, "\x7b" ∉ l → "\x7d" ∉ l → closeFrom l (d + 1) = none := by
  induction l with
  | nil => intro d _ _; simp [closeFrom]
  | cons t rest ih =>
    intro d h1 h2
    rw [closeFrom]
    rw [if_neg (by intro hh; exact h1 (by simp [hh])),
        if_neg (by intro hh; exact h2 (by simp [hh]))]
    rw [ih d (fun hh => h1 (by simp [hh])) (fun hh => h2 (by simp [hh]))]
    rfl

/-- The `DEFINE` parameter scan starting on the closing parenthesis returns
at once with the accumulated parameters. -/
theorem scanParams_close (ts : List String) (j : Nat) (acc : List String)
    (h : ts[j]? = some ")") : scanParams ts j acc = .ok (acc, j) := by
  obtain ⟨hj, he⟩ := List.getElem?_eq_some.mp h
  unfold scanParams
  obtain ⟨k, hk⟩ : ∃ k, ts.length + 1 - j = k + 1 := ⟨ts.length - j, by omega⟩
  rw [hk]
  simp [scanParamsAux, hj, he]

/-- The slice `tokens[a : fbe - 1]` taken by the interpreter when the block
is unterminated: with `fbe` equal to the token count, the stored body is the
remaining tokens with the final token dropped. -/
theorem pySlice_drops_last (pre body : List String) :
    pySlice (pre ++ body) pre.length (pre.length + body.length - 1) = body.dropLast := by
  cases body with
  | nil =>
    simp only [List.append_nil, List.length_nil, Nat.add_zero, List.dropLast_nil, pySlice]
    apply List.drop_eq_nil_of_le
    rw [List.length_take]
    omega
  | cons b bs =>
    have h1 : pre.length + (b :: bs).length - 1 = pre.length + bs.length := by simp
    rw [pySlice, h1, List.take_append]
    rw [List.drop_left pre ((b :: bs).take bs.length), List.dropLast_eq_take]
    simp

/-- The unterminated-`DEFINE` slice in the index shape produced by the
interpreter. -/
theorem pySlice_define_body (f : String) (body : List String) :
    pySlice ("DEFINE" :: f :: "(" :: ")" :: "\x7b" :: body) 5 (body.length + 1 + 1 + 1 + 1) =
      body.dropLast := by
  have h0 := pySlice_drops_last ["DEFINE", f, "(", ")", "\x7b"] body
  simp only [List.cons_append, List.nil_append, List.length_cons, List.length_nil] at h0
  rw [(by omega : body.length + 1 + 1 + 1 + 1 = 5 + body.length - 1)]
  simpa using h0

/-- Claim C10: the block matcher is total (a plain function, always
returning an index at most the token count when started in range); when a
matching closing brace exists — `closeFrom` finds a depth-zero point — it
returns the index just past that closing brace, and otherwise it returns the
length of the token list; and, downstream, a `DEFINE` whose brace-free body
is never closed is stored with its last remaining token silently dropped
(the interpreter succeeds, reporting no error). -/
theorem c10_find_block_end (ts : List String) (start : Nat) (hs : start ≤ ts.length) :
    (∀ off : Nat, closeFrom (ts.drop start) 1 = some off →
      find_block_end ts start = start + off ∧ 0 < off ∧ start + off ≤ ts.length ∧
      (ts.drop start)[off - 1]? = some "\x7d") ∧
    (closeFrom (ts.drop start) 1 = none → find_block_end ts start = ts.length) ∧
    find_block_end ts start ≤ ts.length ∧
    (∀ (fuel : Nat) (o : Oracle) (st : RunState) (f : String) (body : List String),
      "\x7b" ∉ body → "\x7d" ∉ body →
      interp (fuel + 2) o st (["DEFINE", f, "(", ")", "\x7b"] ++ body) 0 =
        .ok { st with symbols := envSet st.symbols f (.func ⟨[], body.dropLast⟩) }) := by
  have hmain := fbeAux_eq_closeFrom ts (ts.length - start) start 1 hs (le_refl _)
  refine ⟨fun off hoff => ?_, fun hnone => ?_, ?_, fun fuel o st f body hb1 hb2 => ?_⟩
  · have hcf := closeFrom_some (ts.drop start) 1 off (by omega) hoff
    rw [find_block_end, hmain, hoff]
    have hlen : (ts.drop start).length = ts.length - start := List.length_drop start ts
    exact ⟨rfl, hcf.1, by omega, hcf.2.2⟩
  · rw [find_block_end, hmain, hnone]
  · rw [find_block_end, hmain]
    cases hc : closeFrom (ts.drop start) 1 with
    | none => simp
    | some off =>
      have hcf := closeFrom_some (ts.drop start) 1 off (by omega) hc
      have hlen : (ts.drop start).length = ts.length - start := List.length_drop start ts
      have h2 : off ≤ ts.length - start := hlen ▸ hcf.2.1
      show start + off ≤ ts.length
      omega
  · have hdrop : (["DEFINE", f, "(", ")", "\x7b"] ++ body).drop 5 = body := by
      exact List.drop_left ["DEFINE", f, "(", ")", "\x7b"] body
    have hnone : closeFrom ((["DEFINE", f, "(", ")", "\x7b"] ++ body).drop 5) 1 = none := by
      rw [hdrop]
      exact closeFrom_braceFree body 0 hb1 hb2
    have hfbe : find_block_end (["DEFINE", f, "(", ")", "\x7b"] ++ body) 5 =
        (["DEFINE", f, "(", ")", "\x7b"] ++ body).length := by
      rw [find_block_end,
        fbeAux_eq_closeFrom _ _ 5 1 (by simp) (le_refl _), hnone]
    have hscan : scanParams (["DEFINE", f, "(", ")", "\x7b"] ++ body) 3 [] = .ok ([], 3) :=
      scanParams_close _ 3 [] (by simp)
    simp only [List.cons_append, List.nil_append]
    simp only [List.cons_append, List.nil_append] at hscan hfbe
    simp [interp, tokAt, liftE, hscan, hfbe]
    rw [pySlice_define_body]

/-- Witness for C10: a lone closing brace is matched at offset 1; a
brace-free token list has no match and the matcher returns the length; and
DEFINE with the unterminated body `x y` silently stores the body `x`. -/
theorem c10_find_block_end_witness :
    (0 : Nat) ≤ (["\x7d"] : List String).length ∧
    find_block_end ["\x7d"] 0 = 0 + 1 ∧
    find_block_end ["x"] 0 = (["x"] : List String).length ∧
    interp 2 defaultOracle initState ["DEFINE", "f", "(", ")", "\x7b", "x", "y"] 0 =
      .ok { initState with symbols := [("f", .func ⟨[], ["x"]⟩)] } :=
  ⟨by decide,
   ((c10_find_block_end ["\x7d"] 0 (by decide)).1 1 (by decide)).1,
   (c10_find_block_end ["x"] 0 (by decide)).2.1 (by decide),
   (c10_find_block_end ["x"] 0 (by decide)).2.2.2 0 defaultOracle initState "f" ["x", "y"]
     (by decide) (by decide)⟩

/-! ## The tokenizer contract (claim C8) -/

/-- A character the tokenizer surrounds with separators. -/
def isSepOp (c : Char) : Bool := c ∈ sepChars || c ∈ opChars

/-- Character-wise expansion: the combined effect of all the `replace`
passes on a single character. -/
def expandChar (c : Char) : List Char := if isSepOp c then [' ', c, ' '] else [c]

/-- No adjacent `!` `=` token pair occurs in the list. -/
def noAdjBangEqB : List String → Bool
  | [] => true
  | [_] => true
  | a :: b :: rest => !(a = "!" && b = "=") && noAdjBangEqB (b :: rest)

/-- Separator and operator characters are not whitespace. -/
theorem isSepOp_not_ws (c : Char) (h : isSepOp c = true) : c.isWhitespace = false := by
  simp [isSepOp, sepChars, opChars] at h
  rcases h with h | h
  · rcases h with rfl | rfl | rfl | rfl | rfl <;> rfl
  · rcases h with rfl | rfl | rfl | rfl | rfl | rfl | rfl | rfl <;> rfl

/-- Folding the single-character `replace` passes over a duplicate-free,
space-free pattern list is character-wise expansion of the whole string. -/
theorem foldl_replaceChar (ps : List Char) :
    ∀ cs : List Char, ps.Nodup → ' ' ∉ ps →
      ps.foldl (fun acc ch => replaceChar ch acc) cs =
        cs.flatMap (fun x => if x ∈ ps then [' ', x, ' '] else [x]) := by
  induction ps with
  | nil =>
    intro cs _ _
    simp
  | cons p ps ih =>
    intro cs hnd hsp
    have hnd' := List.nodup_cons.mp hnd
    rw [List.foldl_cons, ih (replaceChar p cs) hnd'.2
      (fun h => hsp (List.mem_cons_of_mem p h))]
    rw [replaceChar, List.flatMap_assoc]
    congr 1
    funext x
    by_cases hx : x = p
    · subst hx
      have h1 : ' ' ∉ ps := fun h => hsp (List.mem_cons_of_mem x h)
      simp [hnd'.1, h1]
    · simp [hx]

/-- The two `replace` passes of the tokenizer together perform character-wise
expansion by `expandChar`. -/
theorem tokenize_expand (cs : List Char) :
    opChars.foldl (fun acc ch => replaceChar ch acc)
        (sepChars.foldl (fun acc ch => replaceChar ch acc) cs) =
      cs.flatMap expandChar := by
  rw [foldl_replaceChar sepChars cs (by decide) (by decide),
      foldl_replaceChar opChars _ (by decide) (by decide), List.flatMap_assoc]
  congr 1
  funext x
  by_cases h1 : x ∈ sepChars
  · have h2 : x ∉ opChars := by
      intro h2
      simp [sepChars] at h1
      rcases h1 with rfl | rfl | rfl | rfl | rfl <;> simp [opChars] at h2
    simp [h1, h2, expandChar, isSepOp, (by decide : (' ' : Char) ∉ opChars)]
  · by_cases h2 : x ∈ opChars
    · simp [h1, h2, expandChar, isSepOp]
    · simp [h1, h2, expandChar, isSepOp]

/-- The word structure of a split expansion: the chunk list is nonempty, its
first chunk is free of separators/operators and whitespace, and every chunk
is either a singleton separator/operator or entirely free of
separator/operator and whitespace characters. -/
theorem splitWs_expand (cs : List Char) :
    ∃ w0 ws, splitWs (cs.flatMap expandChar) = w0 :: ws ∧
      (∀ ch ∈ w0, isSepOp ch = false ∧ ch.isWhitespace = false) ∧
      (∀ w ∈ w0 :: ws, (∃ c, w = [c] ∧ isSepOp c = true) ∨
        ∀ ch ∈ w, isSepOp ch = false ∧ ch.isWhitespace = false) := by
  induction cs with
  | nil =>
    refine ⟨[], [], rfl, by simp, ?_⟩
    intro w hw
    simp at hw
    subst hw
    exact Or.inr (by simp)
  | cons c cs ih =>
    obtain ⟨w0, ws, hE, hw0, hall⟩ := ih
    rw [List.flatMap_cons]
    by_cases hsep : isSepOp c
    · have hnws : c.isWhitespace = false := isSepOp_not_ws c hsep
      refine ⟨[], [c] :: w0 :: ws, ?_, by simp, ?_⟩
      · rw [expandChar, if_pos hsep]
        simp [splitWs, hnws, hE]
      · intro w hw
        rcases List.mem_cons.mp hw with rfl | hw
        · exact Or.inr (by simp)
        · rcases List.mem_cons.mp hw with rfl | hw
          · exact Or.inl ⟨c, rfl, hsep⟩
          · exact hall w hw
    · rw [expandChar, if_neg hsep]
      by_cases hws : c.isWhitespace
      · refine ⟨[], w0 :: ws, ?_, by simp, ?_⟩
        · simp [splitWs, hws, hE]
        · intro w hw
          rcases List.mem_cons.mp hw with rfl | hw
          · exact Or.inr (by simp)
          · exact hall w hw
      · refine ⟨c :: w0, ws, ?_, ?_, ?_⟩
        · simp [splitWs, hws, hE]
        · intro ch hch
          rcases List.mem_cons.mp hch with rfl | hch
          · exact ⟨by simpa using hsep, by simpa using hws⟩
          · exact hw0 ch hch
        · intro w hw
          rcases List.mem_cons.mp hw with rfl | hw
          · refine Or.inr ?_
            intro ch hch
            rcases List.mem_cons.mp hch with rfl | hch
            · exact ⟨by simpa using hsep, by simpa using hws⟩
            · exact hw0 ch hch
          · exact hall w (List.mem_cons_of_mem w0 hw)

/-- Every token produced by the bang-equals merge is either the merged token
or one of the original tokens. -/
theorem mem_combineBangEq (ts : List String) :
    ∀ t ∈ combineBangEq ts, t = "!=" ∨ t ∈ ts := by
  induction ts using combineBangEq.induct with
  | case1 rest ih =>
    intro t ht
    rw [combineBangEq] at ht
    rcases List.mem_cons.mp ht with rfl | ht
    · exact Or.inl rfl
    · rcases ih t ht with h | h
      · exact Or.inl h
      · exact Or.inr (by simp [h])
  | case2 t0 rest hne ih =>
    intro t ht
    rw [combineBangEq] at ht
    · rcases List.mem_cons.mp ht with rfl | ht
      · exact Or.inr (by simp)
      · rcases ih t ht with h | h
        · exact Or.inl h
        · exact Or.inr (List.mem_cons_of_mem t0 h)
    · exact hne
  | case3 =>
    intro t ht
    rw [combineBangEq] at ht
    simp at ht

/-- The merge pass cannot create a token list starting with `=` unless the
input already started with it. -/
theorem combineBangEq_head_ne (ts : List String) (h : ts.head? ≠ some "=") :
    (combineBangEq ts).head? ≠ some "=" := by
  induction ts using combineBangEq.induct with
  | case1 rest ih =>
    rw [combineBangEq]
    simp
  | case2 t0 rest hne ih =>
    rw [combineBangEq]
    · simpa using h
    · exact hne
  | case3 => simp [combineBangEq]

/-- After the merge pass, no adjacent `!` `=` pair remains: every such pair
of the input has been fused into a single `!=` token. -/
theorem noAdj_combineBangEq (ts : List String) : noAdjBangEqB (combineBangEq ts) = true := by
  induction ts using combineBangEq.induct with
  | case1 rest ih =>
    rw [combineBangEq]
    cases hl : combineBangEq rest with
    | nil => rfl
    | cons a l' =>
      rw [show noAdjBangEqB ("!=" :: a :: l') = noAdjBangEqB (a :: l') from by
        simp [noAdjBangEqB]]
      rw [← hl]
      exact ih
  | case2 t0 rest hne ih =>
    rw [combineBangEq]
    · by_cases ht : t0 = "!"
      · subst ht
        have hh : (combineBangEq rest).head? ≠ some "=" := by
          apply combineBangEq_head_ne
          cases rest with
          | nil => simp
          | cons r rr =>
            simp
            intro hr
            exact absurd (hne rr rfl (by rw [hr])) (by simp)
        cases hl : combineBangEq rest with
        | nil => rfl
        | cons a l' =>
          have ha : a ≠ "=" := by rw [hl] at hh; simpa using hh
          rw [show noAdjBangEqB ("!" :: a :: l') = noAdjBangEqB (a :: l') from by
            simp [noAdjBangEqB, ha]]
          rw [← hl]
          exact ih
      · cases hl : combineBangEq rest with
        | nil => rfl
        | cons a l' =>
          rw [show noAdjBangEqB (t0 :: a :: l') = noAdjBangEqB (a :: l') from by
            simp [noAdjBangEqB, ht]]
          rw [← hl]
          exact ih
    · exact hne
  | case3 => rw [combineBangEq]; rfl

/-- The tokenizer, written over the character-wise expansion. -/
theorem tokenize_eq (cs : List Char) :
    tokenize cs = combineBangEq
      (((splitWs (cs.flatMap expandChar)).map (fun l => String.mk l)).filter
        (fun s => s ≠ "")) := by
  simp only [tokenize]
  rw [tokenize_expand]

/-- Every token of `tokenize` is the merged `!=` or a nonempty whitespace
chunk of the expanded input. -/
theorem tokenize_token_shape (cs : List Char) :
    ∀ t ∈ tokenize cs, t = "!=" ∨
      ∃ w, w ∈ splitWs (cs.flatMap expandChar) ∧ t = String.mk w ∧ w ≠ [] := by
  intro t ht
  rw [tokenize_eq] at ht
  rcases mem_combineBangEq _ t ht with h | h
  · exact Or.inl h
  · right
    rcases List.mem_filter.mp h with ⟨hmem, hne⟩
    rcases List.mem_map.mp hmem with ⟨w, hw, rfl⟩
    refine ⟨w, hw, rfl, ?_⟩
    intro hnil
    subst hnil
    simp at hne

/-- Claim C8: the tokenizer's contract.  (1) The successive
single-character `replace` passes amount to character-wise expansion that
surrounds each of `\x7b \x7d ( ) ,` and `+ - * / = > < !` with spaces;
(2) after splitting on whitespace and discarding empty fragments every token
is nonempty and whitespace-free; (3) the only multi-character token that can
contain a separator/operator character is the merged `!=` — no other
multi-character operator exists; (4) no adjacent `!` `=` pair survives the
merge.  Totality is by construction: `tokenize` is a plain total function on
every input string. -/
theorem c8_tokenizer_contract (cs : List Char) :
    (opChars.foldl (fun acc ch => replaceChar ch acc)
        (sepChars.foldl (fun acc ch => replaceChar ch acc) cs) = cs.flatMap expandChar) ∧
    (∀ t ∈ tokenize cs, t ≠ "" ∧ ∀ ch ∈ t.data, ch.isWhitespace = false) ∧
    (∀ t ∈ tokenize cs, t = "!=" ∨ (∃ c, t.data = [c] ∧ isSepOp c = true) ∨
      ∀ ch ∈ t.data, isSepOp ch = false) ∧
    noAdjBangEqB (tokenize cs) = true := by
  obtain ⟨w0, ws, hE, hw0, hall⟩ := splitWs_expand cs
  refine ⟨tokenize_expand cs, ?_, ?_, ?_⟩
  · intro t ht
    rcases tokenize_token_shape cs t ht with rfl | ⟨w, hw, rfl, hne⟩
    · refine ⟨by decide, ?_⟩
      intro ch hch
      have : ch ∈ ['!', '='] := hch
      rcases (by simpa using this : ch = '!' ∨ ch = '=') with rfl | rfl <;> rfl
    · refine ⟨?_, ?_⟩
      · intro hh
        apply hne
        have hd := congrArg String.data hh
        simpa using hd
      intro ch hch
      have hch' : ch ∈ w := by simpa using hch
      rw [hE] at hw
      rcases hall w hw with ⟨c, rfl, hc⟩ | hfree
      · have hce : ch = c := by simpa using hch'
        subst hce
        exact isSepOp_not_ws ch hc
      · exact (hfree ch hch').2
  · intro t ht
    rcases tokenize_token_shape cs t ht with rfl | ⟨w, hw, rfl, hne⟩
    · exact Or.inl rfl
    · right
      rw [hE] at hw
      rcases hall w hw with ⟨c, rfl, hc⟩ | hfree
      · exact Or.inl ⟨c, by simp, hc⟩
      · right
        intro ch hch
        exact (hfree ch (by simpa using hch)).1
  · rw [tokenize_eq]
    exact noAdj_combineBangEq _

/-- Witness for C8: a concrete program containing a brace and an adjacent
`!` `=` pair, with the contract's conclusions at the token `\x7b`. -/
theorem c8_tokenizer_contract_witness :
    ("\x7b" ∈ tokenize "ab\x7bx != 5".toList) ∧
    ("\x7b" ≠ "" ∧ ∀ ch ∈ ("\x7b" : String).data, ch.isWhitespace = false) ∧
    ("\x7b" = "!=" ∨ (∃ c, ("\x7b" : String).data = [c] ∧ isSepOp c = true) ∨
      ∀ ch ∈ ("\x7b" : String).data, isSepOp ch = false) ∧
    noAdjBangEqB (tokenize "ab\x7bx != 5".toList) = true :=
  ⟨by decide,
   (c8_tokenizer_contract "ab\x7bx != 5".toList).2.1 "\x7b" (by decide),
   (c8_tokenizer_contract "ab\x7bx != 5".toList).2.2.1 "\x7b" (by decide),
   (c8_tokenizer_contract "ab\x7bx != 5".toList).2.2.2⟩

end SketchScript
